import Mathlib

/-!
Verification of the glog rotating file writer and slog handler
(`file_writer.go`, `handler.go`), shallowly embedded in Lean.

Modelling conventions:
* paths are taken relative to the writer's fixed directory (the
  `filepath.Dir`/`filepath.Join` plumbing is dropped, the writer keeps
  only the filename component), so the file system is a flat list of
  directory entries;
* Go `int` is `Int`, byte slices are `List Nat`, Go `string` is `String`
  or `List Char`;
* fallible OS calls (open, write/flush, close, remove) take their
  success or failure from explicit fault flags carried by the
  file-system model, and return `Option Err` like Go error values;
* the background goroutine is not modelled as a thread: its body
  (`checkAndRotate`, `flushBuffer`) is modelled as the state transitions
  it performs under the writer's mutex, with the current formatted time
  passed in as a parameter.
-/

namespace Glog

/-- The two rotation-check intervals that `getCheckInterval` can return
(`time.Second` and `time.Minute`). -/
inductive Duration where
  | second
  | minute
deriving DecidableEq

/-- `leadsWith p l` is true when `p` is a leading block of `l`
(Go `strings.HasPrefix l p`). -/
def leadsWith : List Char → List Char → Bool
  | [], _ => true
  | _ :: _, [] => false
  | a :: p, b :: l => a == b && leadsWith p l

/-- `hasChunk n l` is true when `n` occurs contiguously inside `l`
(Go `strings.Contains l n`). -/
def hasChunk (n : List Char) : List Char → Bool
  | [] => leadsWith n []
  | c :: rest => leadsWith n (c :: rest) || hasChunk n rest

/-- `getCheckInterval` (file_writer.go lines 145-151): the check interval
is one second when the filename contains the substring "05" or the
substring "5", one minute otherwise. -/
def getCheckInterval (fileName : String) : Duration :=
  if hasChunk ['0', '5'] fileName.toList || hasChunk ['5'] fileName.toList then
    Duration.second
  else
    Duration.minute

/-- Whether a Go time layout contains a seconds-level token ("05" or "5"),
scanning the numeric tokens the way Go's `time.nextStdChunk` does:
"2006" is the year, "15" is the hour, "01".."06" are the two-digit
month/day/hour/minute/second/year tokens (of which "05" is the seconds),
and a bare digit '1'..'5' is the corresponding one-digit token (of which
'5' is the seconds).  Textual tokens ("Jan", "Mon", "PM", "002") contain
no '5' and cannot interfere with this scan. -/
def layoutHasSecondsToken : List Char → Bool
  | [] => false
  | '2' :: '0' :: '0' :: '6' :: rest => layoutHasSecondsToken rest
  | '1' :: '5' :: rest => layoutHasSecondsToken rest
  | '0' :: '5' :: _ => true
  | '0' :: c :: rest =>
      if '1' ≤ c && c ≤ '6' then layoutHasSecondsToken rest
      else layoutHasSecondsToken (c :: rest)
  | '5' :: _ => true
  | _ :: rest => layoutHasSecondsToken rest

/-- The first pass of `buildGlobPattern` (file_writer.go line 255):
`regexp.MustCompile("2006|0[1-6]|[1-5]|15").ReplaceAllString(fileName, "*")`.
Go regexps use leftmost-first alternation, so at each position the
alternatives are tried in order ("2006", then "0[1-6]", then "[1-5]";
the trailing "15" alternative is dead, because "[1-5]" already matches
its first character); on a match a single `*` is emitted and the scan
resumes after the match, otherwise the character is copied. -/
def replaceTimeTokens : List Char → List Char
  | [] => []
  | '2' :: '0' :: '0' :: '6' :: rest => '*' :: replaceTimeTokens rest
  | '0' :: c :: rest =>
      if '1' ≤ c && c ≤ '6' then '*' :: replaceTimeTokens rest
      else '0' :: replaceTimeTokens (c :: rest)
  | c :: rest =>
      if '1' ≤ c && c ≤ '5' then '*' :: replaceTimeTokens rest
      else c :: replaceTimeTokens rest

/-- The second pass of `buildGlobPattern` (file_writer.go line 256):
`regexp.MustCompile("\\*+").ReplaceAllString(pattern, "*")`, i.e. every
maximal run of `*` collapses to a single `*`. -/
def collapseStars : List Char → List Char
  | [] => []
  | [c] => [c]
  | c :: d :: rest =>
      if c == '*' && d == '*' then collapseStars (d :: rest)
      else c :: collapseStars (d :: rest)

/-- `buildGlobPattern` (file_writer.go lines 253-258), restricted to the
filename component (the final `filepath.Join` with the fixed directory
is dropped). -/
def buildGlobPattern (fileName : String) : String :=
  String.mk (collapseStars (replaceTimeTokens fileName.toList))

/-- Whether some occurrence of a time-format token (in the replaced set
"2006", "01".."06", "1".."5") appears in the string; mirrors the match
structure of `replaceTimeTokens`. -/
def hasTimeToken : List Char → Bool
  | [] => false
  | '2' :: '0' :: '0' :: '6' :: _ => true
  | '0' :: c :: rest =>
      if '1' ≤ c && c ≤ '6' then true
      else hasTimeToken (c :: rest)
  | c :: rest => ('1' ≤ c && c ≤ '5') || hasTimeToken rest

/-- `true` when the string has no two adjacent `*` characters. -/
def noDoubleStar : List Char → Bool
  | [] => true
  | [_] => true
  | c :: d :: rest => !(c == '*' && d == '*') && noDoubleStar (d :: rest)

/-- One segment of a filename as the replacement scan sees it: either one
whole time-format token, or a single character that is not part of any
token. -/
inductive GlobSeg where
  | lit (c : Char)
  | tok (t : List Char)
deriving DecidableEq

/-- Membership in the fixed set of time-format tokens the replacement
targets: the 4-digit year "2006", the two-digit tokens "01".."06"
(month, day, 12-hour, minute, second, 2-digit year) and the hour "15",
and the one-digit variants "1".."5". -/
def isTimeTok : List Char → Bool
  | ['2', '0', '0', '6'] => true
  | ['0', c] => '1' ≤ c && c ≤ '6'
  | ['1', '5'] => true
  | [c] => '1' ≤ c && c ≤ '5'
  | _ => false

/-- The filename a decomposition describes. -/
def flattenSegs : List GlobSeg → List Char
  | [] => []
  | GlobSeg.lit c :: ss => c :: flattenSegs ss
  | GlobSeg.tok t :: ss => t ++ flattenSegs ss

/-- The claim's rendering of a decomposed filename, before collapsing:
every time-format token becomes one wildcard, every other character is
preserved unchanged. -/
def renderSegs : List GlobSeg → List Char
  | [] => []
  | GlobSeg.lit c :: ss => c :: renderSegs ss
  | GlobSeg.tok _ :: ss => '*' :: renderSegs ss

/-- `true` when the list does not start with a digit '1'..'6'. -/
def headNotDigit16 : List Char → Bool
  | [] => true
  | c :: _ => !('1' ≤ c && c ≤ '6')

/-- A decomposition is well formed when every `tok` segment is a genuine
time-format token and every `lit` segment is a character the scan keeps
literal in its position: not a one-digit token, not a `*` (which the
collapsing pass would merge with a wildcard), and a literal '0' not
followed by a digit '1'..'6' (which would make a two-digit token start
there). -/
def wfSegs : List GlobSeg → Bool
  | [] => true
  | GlobSeg.lit c :: ss =>
      !('1' ≤ c && c ≤ '5') && c != '*' &&
      (c != '0' || headNotDigit16 (flattenSegs ss)) && wfSegs ss
  | GlobSeg.tok t :: ss => isTimeTok t && wfSegs ss

/-- The decomposition of a filename into time-format tokens and literal
characters, following exactly the scan of `replaceTimeTokens`
(leftmost-first alternation, so "15" decomposes into the adjacent
one-digit tokens "1" and "5", which render to wildcards that then
collapse into one). -/
def segsOf : List Char → List GlobSeg
  | [] => []
  | '2' :: '0' :: '0' :: '6' :: rest => GlobSeg.tok ['2', '0', '0', '6'] :: segsOf rest
  | '0' :: c :: rest =>
      if '1' ≤ c && c ≤ '6' then GlobSeg.tok ['0', c] :: segsOf rest
      else GlobSeg.lit '0' :: segsOf (c :: rest)
  | c :: rest =>
      if '1' ≤ c && c ≤ '5' then GlobSeg.tok [c] :: segsOf rest
      else GlobSeg.lit c :: segsOf rest

/-! ### Trace extraction (handler.go) -/

/-- A context value as seen by `ctx.Value`: either a string or some
non-string value. -/
inductive CtxVal where
  | str (s : String)
  | other
deriving DecidableEq

/-- A request context, modelled as the partial map that `ctx.Value`
reads (the default extractor only ever uses string keys). -/
def Ctx := String → Option CtxVal

/-- The trace-id key variants probed by `DefaultTraceExtractor`,
in priority order. -/
def traceKeys : List String := ["trace_id", "traceId", "TraceID", "TRACE_ID"]

/-- The span-id key variants probed by `DefaultTraceExtractor`,
in priority order. -/
def spanKeys : List String := ["span_id", "spanId", "SpanID", "SPAN_ID"]

/-- The key-probing loop of `DefaultTraceExtractor` (handler.go lines
69-76 and 79-86): the result variable starts empty and the loop breaks
at the first key whose value exists, is a string, and is non-empty. -/
def firstKeyHit (ctx : Ctx) : List String → String
  | [] => ""
  | k :: ks =>
    match ctx k with
    | some (CtxVal.str s) => if s ≠ "" then s else firstKeyHit ctx ks
    | _ => firstKeyHit ctx ks

/-- `TraceInfo` (handler.go). -/
structure TraceInfo where
  TraceID : String
  SpanID : String
deriving DecidableEq

/-- `DefaultTraceExtractor` (handler.go lines 65-96). -/
def DefaultTraceExtractor (ctx : Ctx) : Option TraceInfo :=
  let traceID := firstKeyHit ctx traceKeys
  let spanID := firstKeyHit ctx spanKeys
  if traceID = "" ∧ spanID = "" then none
  else some { TraceID := traceID, SpanID := spanID }

/-- The string held by a context value, or `""` when the value is absent,
not a string, or the empty string (the cases the probing loop skips). -/
def strOf : Option CtxVal → String
  | some (CtxVal.str s) => s
  | _ => ""

/-- Specification-side reading of the probing loop: the value at the
first key (in priority order) holding a non-empty string, else `""`. -/
def specFirstMatch (ctx : Ctx) (keys : List String) : String :=
  match keys.find? (fun k => strOf (ctx k) != "") with
  | some k => strOf (ctx k)
  | none => ""

/-- An example context used to instantiate the trace-extractor theorem:
only the key "TraceID" is set, to the string "abc". -/
def exCtx : Ctx := fun k => if k = "TraceID" then some (CtxVal.str "abc") else none

/-! ### The file-system model -/

/-- Errors returned by modelled OS calls. -/
inductive Err where
  | notExist
  | ioErr
deriving DecidableEq

/-- A directory entry: name, modification time, directory flag, and (for
regular files) content. -/
structure Entry where
  name : String
  modTime : Nat
  isDir : Bool
  content : List Nat
deriving DecidableEq

/-- The comparison `sort.Slice` is given in `cleanOldFiles` (file_writer.go
line 241): `files[i].modTime.After(files[j].modTime)`, i.e. newest first. -/
def newerFirst (a b : Entry) : Prop := b.modTime ≤ a.modTime

instance : DecidableRel newerFirst := fun a b => Nat.decLe b.modTime a.modTime

instance : IsTotal Entry newerFirst :=
  ⟨fun a b => Nat.le_total b.modTime a.modTime⟩

instance : IsTrans Entry newerFirst :=
  ⟨fun _ _ _ h1 h2 => Nat.le_trans h2 h1⟩

/-- `cleanOldFiles` (file_writer.go lines 204-251), acting on the list of
directory entries.  `isMatch` is the glob match over entry names,
`current` the currently open file, and `removeOk` whether `os.Remove`
succeeds (the pass is fail-fast, so a failing remove is modelled as the
first remove failing and nothing being deleted).  Entries are assumed to
`stat` successfully (the model has no stat faults); directories and the
current file are skipped exactly as in the source.  The sort is modelled
by insertion sort, one admissible outcome of the unstable `sort.Slice`. -/
def cleanOldFiles (maxFiles : Int) (current : String) (isMatch : String → Bool)
    (removeOk : Bool) (entries : List Entry) : List Entry :=
  if maxFiles ≤ 0 then entries
  else
    let files := entries.filter fun e => isMatch e.name && e.name != current && !e.isDir
    if (files.length : Int) ≤ maxFiles then entries
    else if removeOk then
      let sorted := List.insertionSort newerFirst files
      let doomed := sorted.drop maxFiles.toNat
      entries.filter fun e => !(doomed.contains e)
    else entries

/-- `filepath.Match` for the patterns this code builds: literal characters
plus `*` matching any character sequence (names live in a single
directory, and a glob built by `buildGlobPattern` from a filename
contains no other metacharacters).  Structural on an explicit fuel; the
fuel used by `globMatch` always suffices, as every step shortens the
pattern or the name. -/
def globMatchFuel : Nat → List Char → List Char → Bool
  | 0, _, _ => false
  | _ + 1, [], [] => true
  | fuel + 1, '*' :: ps, [] => globMatchFuel fuel ps []
  | fuel + 1, '*' :: ps, c :: cs =>
      globMatchFuel fuel ps (c :: cs) || globMatchFuel fuel ('*' :: ps) cs
  | fuel + 1, p :: ps, c :: cs => p == c && globMatchFuel fuel ps cs
  | _ + 1, _ :: _, [] => false
  | _ + 1, [], _ :: _ => false

/-- Glob matching of a name against a pattern. -/
def globMatch (pat nm : String) : Bool :=
  globMatchFuel (pat.toList.length + nm.toList.length + 1) pat.toList nm.toList

/-- The file system plus its fault model: `openOk` says whether opening a
given path can succeed (e.g. whether the parent directory exists),
`writeOk` whether the disk accepts data (a zero-byte write or flush of an
empty buffer never fails), `closeOk` whether closing a file descriptor
succeeds, and `removeOk` whether `os.Remove` succeeds.  `clock` is the
current time, stamped on created or written entries. -/
structure FS where
  entries : List Entry
  clock : Nat
  openOk : String → Bool
  writeOk : Bool
  closeOk : Bool
  removeOk : Bool

/-- The content of the (first) regular file with the given name. -/
def FS.lookupFile (fs : FS) (name : String) : Option (List Nat) :=
  match fs.entries.find? (fun e => e.name == name && !e.isDir) with
  | some e => some e.content
  | none => none

/-- Whether a regular file with the given name exists. -/
def FS.hasEntry (fs : FS) (name : String) : Bool :=
  fs.entries.any fun e => e.name == name && !e.isDir

/-- The `O_CREATE` part of `os.OpenFile`: create an empty file if no
regular file with this name exists. -/
def FS.createFile (fs : FS) (name : String) : FS :=
  if fs.hasEntry name then fs
  else { fs with entries := fs.entries ++ [⟨name, fs.clock, false, []⟩] }

/-- The `O_APPEND` write to an open file: append the bytes to every
regular file entry with the handle's name (names are unique on a real
file system) and stamp it with the clock.  Writing zero bytes performs
no system call and changes nothing. -/
def FS.appendFile (fs : FS) (name : String) (p : List Nat) : FS :=
  if p.isEmpty then fs
  else
    { fs with entries := fs.entries.map fun e =>
        if e.name == name && !e.isDir then
          { e with content := e.content ++ p, modTime := fs.clock }
        else e }

/-! ### The rotating file writer (file_writer.go) -/

/-- The mutable state of a `FileWriter`: the filename pattern, the
resolved current path, the open-file handle (modelled by the path it was
opened at), the `bufio` buffer (its pending bytes), and the immutable
`maxFiles` / `flushInterval` configuration (`flushInterval` counts the
configured seconds; the Go value is that number times `time.Second`). -/
structure FileWriter where
  fileName : String
  current : String
  file : Option String
  buf : Option (List Nat)
  maxFiles : Int
  flushInterval : Int
deriving DecidableEq

/-- `openCurrentLocked` (file_writer.go lines 187-202): open the file at
`current` with create/append; on success install the handle and a fresh
empty buffer exactly when `flushInterval > 0`; on failure clear both and
return the error. -/
def FileWriter.openCurrentLocked (fs : FS) (s : FileWriter) :
    FS × FileWriter × Option Err :=
  if fs.openOk s.current then
    (fs.createFile s.current,
     { s with file := some s.current,
              buf := if 0 < s.flushInterval then some [] else none },
     none)
  else
    (fs, { s with file := none, buf := none }, some Err.notExist)

/-- The result of a `Write` call: the new file system and writer state,
the byte count, and the error value. -/
structure WriteResult where
  fs : FS
  state : FileWriter
  n : Nat
  err : Option Err

/-- The body of `Write` once a file is open (file_writer.go lines 68-78):
with `flushInterval == 0` write straight to the file, otherwise create
the `bufio` buffer if needed and append to it (the in-memory buffer is
unbounded in the model, so a buffered append always succeeds).  The
`none` handle branch is unreachable from `Write` (in the source a nil
handle there would be a crash). -/
def FileWriter.writeToOpen (fs : FS) (s : FileWriter) (p : List Nat) : WriteResult :=
  if s.flushInterval = 0 then
    match s.file with
    | some h =>
      if p.isEmpty then ⟨fs, s, 0, none⟩
      else if fs.writeOk then ⟨fs.appendFile h p, s, p.length, none⟩
      else ⟨fs, s, 0, some Err.ioErr⟩
    | none => ⟨fs, s, 0, some Err.ioErr⟩
  else
    ⟨fs, { s with buf := some ((s.buf).getD [] ++ p) }, p.length, none⟩

/-- `Write` (file_writer.go lines 57-79): if no file is open, first try
to reopen the resolved current file, propagating the open error;
then write directly or through the buffer. -/
def FileWriter.Write (fs : FS) (s : FileWriter) (p : List Nat) : WriteResult :=
  match s.file with
  | none =>
    match FileWriter.openCurrentLocked fs s with
    | (fs1, s1, some e) => ⟨fs1, s1, 0, some e⟩
    | (fs1, s1, none) => FileWriter.writeToOpen fs1 s1 p
  | some _ => FileWriter.writeToOpen fs s p

/-- The flush-and-clear step shared by `Close` and `checkAndRotate`
(`f.buf.Flush()` followed by `f.buf = nil` on success; on failure the
buffer is left in place and the error returned).  Flushing an empty
buffer performs no write and cannot fail. -/
def FileWriter.flushLocked (fs : FS) (s : FileWriter) :
    FS × FileWriter × Option Err :=
  match s.buf with
  | none => (fs, s, none)
  | some b =>
    match s.file with
    | some h =>
      if b.isEmpty || fs.writeOk then
        (fs.appendFile h b, { s with buf := none }, none)
      else (fs, s, some Err.ioErr)
    | none => (fs, s, some Err.ioErr)

/-- `flushBuffer` (file_writer.go lines 135-142), run on each flush tick:
flush the buffer if present, ignoring any error; the buffer object is
kept (only its pending bytes are drained). -/
def FileWriter.flushBuffer (fs : FS) (s : FileWriter) : FS × FileWriter :=
  match s.buf, s.file with
  | some b, some h =>
    if b.isEmpty || fs.writeOk then
      (fs.appendFile h b, { s with buf := some [] })
    else (fs, s)
  | _, _ => (fs, s)

/-- `Close` (file_writer.go lines 81-104), after the background task has
been cancelled and awaited: flush the buffer (returning the error and
keeping the buffer on failure), then close the file (returning the error
and keeping the handle on failure), clearing each on success. -/
def FileWriter.Close (fs : FS) (s : FileWriter) : FS × FileWriter × Option Err :=
  match FileWriter.flushLocked fs s with
  | (fs1, s1, some e) => (fs1, s1, some e)
  | (fs1, s1, none) =>
    match s1.file with
    | none => (fs1, s1, none)
    | some _ =>
      if fs1.closeOk then (fs1, { s1 with file := none }, none)
      else (fs1, s1, some Err.ioErr)

/-- The open-and-prune tail of `checkAndRotate` (file_writer.go lines
175-182): update `current`, open it, and on success prune old files when
`maxFiles > 0`; open errors are swallowed. -/
def FileWriter.rotateOpen (fs : FS) (s : FileWriter) (current : String) :
    FS × FileWriter :=
  match FileWriter.openCurrentLocked fs { s with current := current } with
  | (fs2, s3, some _) => (fs2, s3)
  | (fs2, s3, none) =>
    if 0 < s3.maxFiles then
      ({ fs2 with
          entries := (cleanOldFiles s3.maxFiles s3.current
            (fun nm => globMatch (buildGlobPattern s3.fileName) nm)
            fs2.removeOk fs2.entries) },
       s3)
    else (fs2, s3)

/-- `checkAndRotate` (file_writer.go lines 154-184): format the filename
pattern with the current time (`formatted` is that result); if the
resolved path changed, flush and drop the buffer, close the old file,
then open the new path and prune — returning early, with errors
swallowed, if the flush or the close fails. -/
def FileWriter.checkAndRotate (fs : FS) (s : FileWriter) (formatted : String) :
    FS × FileWriter :=
  if formatted = s.current then (fs, s)
  else
    match FileWriter.flushLocked fs s with
    | (fs1, s1, some _) => (fs1, s1)
    | (fs1, s1, none) =>
      match s1.file with
      | some _ =>
        if fs1.closeOk then
          FileWriter.rotateOpen fs1 { s1 with file := none } formatted
        else (fs1, s1)
      | none => FileWriter.rotateOpen fs1 s1 formatted

/-- `NewFileWriterWithFlushInterval` (file_writer.go lines 35-55),
without the background goroutine: build the zero-valued state and run
the initial `checkAndRotate`; `formattedNow` is the filename pattern
formatted at construction time. -/
def NewFileWriterWithFlushInterval (fs : FS) (path : String) (maxFiles : Int)
    (flushIntervalSeconds : Int) (formattedNow : String) : FS × FileWriter :=
  let s : FileWriter :=
    { fileName := path, current := "", file := none, buf := none,
      maxFiles := maxFiles, flushInterval := flushIntervalSeconds }
  FileWriter.checkAndRotate fs s formattedNow

/-- The state invariant of the spec (§3): the buffer is present exactly
when buffering is enabled and a file is open. -/
def inv (s : FileWriter) : Prop :=
  s.buf ≠ none ↔ (0 < s.flushInterval ∧ s.file ≠ none)

instance (s : FileWriter) : Decidable (inv s) := by
  unfold inv; infer_instance

/-! ### The slog handler (handler.go) -/

/-- `FormatType` (handler.go): `line` is `FormatLine` (the zero value),
`json` is `FormatJSON`, `text` is `FormatText`. -/
inductive FormatType where
  | line
  | json
  | text
deriving DecidableEq

/-- `slog.LevelInfo`. -/
def LevelInfo : Int := 0

/-- `defaultTraceIDFieldName` (handler.go). -/
def defaultTraceIDFieldName : String := "trace_id"

/-- `defaultSpanIDFieldName` (handler.go). -/
def defaultSpanIDFieldName : String := "span_id"

/-- `Options` (handler.go lines 115-140).  A user-supplied `io.Writer` is
characterised by whether it implements `io.Closer` and by its `Close`
result; the `ReplaceAttr` and `RecordHandler` hooks are tracked by
presence only (their behaviour plays no role in the claims). -/
structure Options where
  Writer : Option (Bool × Option Err)
  LogPath : String
  MaxFiles : Int
  FlushInterval : Int
  Level : Int
  Format : FormatType
  AddSource : Bool
  ReplaceAttr : Option Unit
  TraceExtractor : Option (Ctx → Option TraceInfo)
  TraceIDFieldName : String
  SpanIDFieldName : String
  RecordHandler : Option Unit

/-- `defaultOptions` (handler.go lines 143-157). -/
def defaultOptions : Options :=
  { Writer := none, LogPath := "", MaxFiles := 0, FlushInterval := 0,
    Level := LevelInfo, Format := FormatType.line, AddSource := false,
    ReplaceAttr := none, TraceExtractor := none,
    TraceIDFieldName := defaultTraceIDFieldName,
    SpanIDFieldName := defaultSpanIDFieldName,
    RecordHandler := none }

/-- The writer a handler ends up with: `os.Stdout`, a rotating
`FileWriter` (with its construction parameters), or a user-supplied
writer.  `os.Stdout` (an `*os.File`) and a `*FileWriter` both implement
`io.Closer`; for a user writer that is its `isCloser` flag. -/
inductive HandlerWriter where
  | stdoutW
  | fileW (path : String) (maxFiles : Int) (flushInterval : Int)
  | customW (isCloser : Bool) (closeResult : Option Err)
deriving DecidableEq

/-- Whether the writer implements `io.Closer` (the `h.writer.(io.Closer)`
type assertion in handler.go line 273). -/
def HandlerWriter.isCloser : HandlerWriter → Bool
  | HandlerWriter.customW c _ => c
  | _ => true

/-- The result of delegating `Close` to the writer (`closer.Close()` in
handler.go line 274).  The rotating-file-writer arm delegates to
`FileWriter.Close`, so its flush and close failures propagate; since the
model is pure, the referenced writer's current state `st` and the file
system `fs` are threaded explicitly (the other writer kinds leave them
untouched).  For a user writer the result is the writer's own; closing
`os.Stdout` is abstracted as succeeding, the standard output descriptor
having no model in this development. -/
def HandlerWriter.closeWriter : HandlerWriter → FS → FileWriter → FS × FileWriter × Option Err
  | HandlerWriter.fileW _ _ _, fs, st => FileWriter.Close fs st
  | HandlerWriter.stdoutW, fs, st => (fs, st, none)
  | HandlerWriter.customW _ r, fs, st => (fs, st, r)

/-- The inner `slog.Handler` selected by `NewHandler`'s format switch,
with the level threshold and source toggle it was built with. -/
inductive InnerHandler where
  | lineH (level : Int) (addSource : Bool)
  | jsonH (level : Int) (addSource : Bool)
  | textH (level : Int) (addSource : Bool)
deriving DecidableEq

/-- The level threshold stored in the inner handler. -/
def InnerHandler.level : InnerHandler → Int
  | InnerHandler.lineH l _ => l
  | InnerHandler.jsonH l _ => l
  | InnerHandler.textH l _ => l

/-- `Handler` (handler.go lines 160-168). -/
structure Handler where
  writer : HandlerWriter
  handler : InnerHandler
  traceExtractor : Option (Ctx → Option TraceInfo)
  traceIDFieldName : String
  spanIDFieldName : String
  recordHandle : Option Unit

/-- `NewHandler` (handler.go lines 171-212): nil options become the
defaults; a supplied `Writer` takes precedence, else a non-empty
`LogPath` selects a rotating file writer, else stdout; the format switch
picks the inner handler (the `default` arm coincides with `FormatLine`,
which an inductive format type cannot leave). -/
def NewHandler (optsIn : Option Options) : Handler :=
  let opts := match optsIn with
    | none => defaultOptions
    | some o => o
  let writer : HandlerWriter :=
    match opts.Writer with
    | some (c, r) => HandlerWriter.customW c r
    | none =>
      if opts.LogPath ≠ "" then
        HandlerWriter.fileW opts.LogPath opts.MaxFiles opts.FlushInterval
      else HandlerWriter.stdoutW
  let inner : InnerHandler :=
    match opts.Format with
    | FormatType.json => InnerHandler.jsonH opts.Level opts.AddSource
    | FormatType.text => InnerHandler.textH opts.Level opts.AddSource
    | FormatType.line => InnerHandler.lineH opts.Level opts.AddSource
  { writer := writer, handler := inner,
    traceExtractor := opts.TraceExtractor,
    traceIDFieldName := opts.TraceIDFieldName,
    spanIDFieldName := opts.SpanIDFieldName,
    recordHandle := opts.RecordHandler }

/-- `Handler.Enabled` (handler.go lines 215-217), which delegates to the
inner handler: a record is enabled when its level is at least the
threshold. -/
def Handler.Enabled (h : Handler) (lvl : Int) : Bool :=
  h.handler.level ≤ lvl

/-- `Handler.Close` (handler.go lines 272-277): delegate to the writer's
`Close` when it implements `io.Closer`, otherwise do nothing and return
nil.  `fs` and `st` are the file system and the current state of the
rotating file writer the handler references (when it references one);
returning them makes "leaves the writer unchanged" expressible. -/
def Handler.Close (h : Handler) (fs : FS) (st : FileWriter) :
    FS × FileWriter × Option Err :=
  if h.writer.isCloser then h.writer.closeWriter fs st else (fs, st, none)

/-! ### Example values used by witnesses and counterexamples -/

/-- A healthy file system holding one regular file "a". -/
def fsOneFile : FS :=
  { entries := [⟨"a", 0, false, []⟩], clock := 1,
    openOk := fun _ => true, writeOk := true, closeOk := true, removeOk := true }

/-- The same file system with a failing disk (writes and flushes of
non-empty data fail). -/
def fsNoWrite : FS := { fsOneFile with writeOk := false }

/-- The same file system where closing a file descriptor fails. -/
def fsNoClose : FS := { fsOneFile with closeOk := false }

/-- An empty, healthy file system. -/
def fsEmpty : FS :=
  { entries := [], clock := 1,
    openOk := fun _ => true, writeOk := true, closeOk := true, removeOk := true }

/-- A buffered writer that has file "a" open with one pending byte. -/
def swBuffered : FileWriter :=
  { fileName := "f", current := "a", file := some "a", buf := some [7],
    maxFiles := 0, flushInterval := 1 }

/-- A buffered writer that has file "a" open with an empty buffer. -/
def swBufferedEmpty : FileWriter :=
  { fileName := "f", current := "a", file := some "a", buf := some [],
    maxFiles := 0, flushInterval := 1 }

/-- An unbuffered writer with no open file, resolved to "app.log". -/
def swClosed : FileWriter :=
  { fileName := "app.log", current := "app.log", file := none, buf := none,
    maxFiles := 0, flushInterval := 0 }

/-- A handler over a user writer that implements `io.Closer` and whose
`Close` returns an I/O error. -/
def hCloser : Handler :=
  { writer := HandlerWriter.customW true (some Err.ioErr),
    handler := InnerHandler.lineH LevelInfo false,
    traceExtractor := none,
    traceIDFieldName := defaultTraceIDFieldName,
    spanIDFieldName := defaultSpanIDFieldName,
    recordHandle := none }

/-- A handler backed by a rotating file writer on "app.log". -/
def hFile : Handler :=
  { writer := HandlerWriter.fileW "app.log" 0 1,
    handler := InnerHandler.lineH LevelInfo false,
    traceExtractor := none,
    traceIDFieldName := defaultTraceIDFieldName,
    spanIDFieldName := defaultSpanIDFieldName,
    recordHandle := none }


/-! ## Theorems -/



theorem rtt_ne_imp_token : ∀ l, replaceTimeTokens l ≠ l → hasTimeToken l = true := by
  intro l h
  induction l using replaceTimeTokens.induct
  case case1 => simp [replaceTimeTokens] at h
  case case2 => simp [hasTimeToken]
  case case3 ch rest hc ih => simp [hasTimeToken]; exact Or.inl (by simpa using hc)
  case case4 ch rest hc ih =>
      simp only [replaceTimeTokens, hc, Bool.false_eq_true, if_false] at h
      simp only [hasTimeToken, hc, Bool.false_eq_true, if_false]
      exact ih fun he => h (by rw [he])
  case case5 ch rest e1 e2 hc ih =>
      simp [hasTimeToken]
      exact Or.inl (by simpa using hc)
  case case6 ch rest e1 e2 hc ih =>
      simp only [replaceTimeTokens, hc, Bool.false_eq_true, if_false] at h
      simp [hasTimeToken, hc]
      exact ih fun he => h (by rw [he])

theorem collapseStars_id : ∀ l : List Char, '*' ∉ l → collapseStars l = l := by
  intro l h
  induction l using collapseStars.induct
  case case1 => rfl
  case case2 => rfl
  case case3 c d rest hcd ih =>
      have hc : c = '*' ∧ d = '*' := by simpa using hcd
      simp [hc.1] at h
  case case4 c d rest hcd ih =>
      simp only [collapseStars, hcd, Bool.false_eq_true, if_false]
      rw [ih fun hm => h (List.mem_cons_of_mem _ hm)]

theorem collapseStars_cons : ∀ l (d : Char) (rest : List Char), l = d :: rest →
    ∃ t, collapseStars l = d :: t := by
  intro l
  induction l using collapseStars.induct
  case case1 => intro d rest h; cases h
  case case2 c => intro d rest h; cases h; exact ⟨[], rfl⟩
  case case3 c d' rest' hcd ih =>
      intro d rest h
      cases h
      obtain ⟨t, ht⟩ := ih d' rest' rfl
      have hc : c = '*' ∧ d' = '*' := by simpa using hcd
      refine ⟨t, ?_⟩
      simp only [collapseStars, hcd, if_true]
      rw [ht, hc.2, hc.1]
  case case4 c d' rest' hcd ih =>
      intro d rest h
      cases h
      simp only [collapseStars, hcd, Bool.false_eq_true, if_false]
      exact ⟨collapseStars (d' :: rest'), rfl⟩

theorem noDoubleStar_collapseStars : ∀ l, noDoubleStar (collapseStars l) = true := by
  intro l
  induction l using collapseStars.induct
  case case1 => rfl
  case case2 => rfl
  case case3 c d rest hcd ih =>
      simpa only [collapseStars, hcd, if_true] using ih
  case case4 c d rest hcd ih =>
      obtain ⟨t, ht⟩ := collapseStars_cons (d :: rest) d rest rfl
      simp only [collapseStars, hcd, Bool.false_eq_true, if_false]
      rw [ht]
      rw [ht] at ih
      simp [noDoubleStar, ih, hcd]



theorem leadsWith_mem : ∀ (n l : List Char), leadsWith n l = true → ∀ a ∈ n, a ∈ l := by
  intro n
  induction n with
  | nil => intro l _ a ha; cases ha
  | cons x xs ih =>
    intro l h a ha
    cases l with
    | nil => simp [leadsWith] at h
    | cons y ys =>
      simp only [leadsWith, Bool.and_eq_true, beq_iff_eq] at h
      rcases List.mem_cons.mp ha with rfl | ha'
      · exact List.mem_cons.mpr (Or.inl h.1)
      · exact List.mem_cons.mpr (Or.inr (ih ys h.2 a ha'))

theorem hasChunk_mem : ∀ (n l : List Char), hasChunk n l = true → ∀ a ∈ n, a ∈ l := by
  intro n l
  induction l with
  | nil => intro h a ha; exact leadsWith_mem n [] h a ha
  | cons c rest ih =>
    intro h a ha
    have h' : (leadsWith n (c :: rest) || hasChunk n rest) = true := h
    rw [Bool.or_eq_true] at h'
    rcases h' with h1 | h1
    · exact leadsWith_mem _ _ h1 a ha
    · exact List.mem_cons.mpr (Or.inr (ih h1 a ha))

theorem hasChunk_singleton_iff (a : Char) (l : List Char) :
    hasChunk [a] l = true ↔ a ∈ l := by
  induction l with
  | nil =>
    constructor
    · intro h; exact absurd h (by exact Bool.false_ne_true)
    · intro h; cases h
  | cons c rest ih =>
    have hrw : hasChunk [a] (c :: rest) = ((a == c) && true || hasChunk [a] rest) := rfl
    rw [hrw, Bool.and_true, Bool.or_eq_true, ih, beq_iff_eq, List.mem_cons]

/-- C2: the claim is false on the code.  The filename "app-15.log"
contains no seconds-level token (its "15" is the hour token), so the
claim requires a one-minute check interval; `getCheckInterval` returns
one second, because the substring check `strings.Contains(fileName, "5")`
also fires on the '5' inside the hour token. -/
theorem claim_C2_cex :
    layoutHasSecondsToken "app-15.log".toList = false ∧
    getCheckInterval "app-15.log" = Duration.second := by
  constructor <;> decide

/-- C2 (amended): the check interval is one second if and only if the
filename contains the character '5' anywhere (the code tests for the
substrings "05" and "5", which amounts to containing '5'); in particular
an hour-only pattern such as "15" is also checked every second.
Otherwise the interval is one minute. -/
theorem claim_C2_amended (s : String) :
    getCheckInterval s = Duration.second ↔ '5' ∈ s.toList := by
  unfold getCheckInterval
  constructor
  · intro h
    cases hcond : (hasChunk ['0', '5'] s.toList || hasChunk ['5'] s.toList) with
    | true =>
      have h' := hcond
      rw [Bool.or_eq_true] at h'
      rcases h' with h1 | h1
      · exact hasChunk_mem _ _ h1 '5' (by simp)
      · exact hasChunk_mem _ _ h1 '5' (by simp)
    | false =>
      rw [if_neg (by rw [hcond]; exact Bool.false_ne_true)] at h
      exact Duration.noConfusion h
  · intro h5
    have hc : (hasChunk ['0', '5'] s.toList || hasChunk ['5'] s.toList) = true := by
      rw [Bool.or_eq_true]
      exact Or.inr ((hasChunk_singleton_iff '5' s.toList).mpr h5)
    rw [if_pos hc]

theorem flattenSegs_segsOf : ∀ s : List Char, flattenSegs (segsOf s) = s := by
  intro s
  induction s using segsOf.induct
  case case1 => rfl
  case case2 rest ih => simp [segsOf, flattenSegs, ih]
  case case3 c rest hc ih => simp [segsOf, hc, flattenSegs, ih]
  case case4 c rest hc ih => simp [segsOf, hc, flattenSegs, ih]
  case case5 c rest e1 e2 hc ih => simp [segsOf, hc, flattenSegs, ih]
  case case6 c rest e1 e2 hc ih => simp [segsOf, hc, flattenSegs, ih]

theorem replaceTimeTokens_eq_render :
    ∀ s : List Char, replaceTimeTokens s = renderSegs (segsOf s) := by
  intro s
  induction s using segsOf.induct
  case case1 => rfl
  case case2 rest ih => simp [segsOf, replaceTimeTokens, renderSegs, ih]
  case case3 c rest hc ih => simp [segsOf, replaceTimeTokens, renderSegs, hc, ih]
  case case4 c rest hc ih => simp [segsOf, replaceTimeTokens, renderSegs, hc, ih]
  case case5 c rest e1 e2 hc ih =>
    simp [segsOf, replaceTimeTokens, renderSegs, hc, ih]
  case case6 c rest e1 e2 hc ih =>
    simp [segsOf, replaceTimeTokens, renderSegs, hc, ih]

theorem wfSegs_segsOf : ∀ s : List Char, '*' ∉ s → wfSegs (segsOf s) = true := by
  intro s h
  induction s using segsOf.induct
  case case1 => rfl
  case case2 rest ih =>
    simp only [segsOf, wfSegs, isTimeTok, Bool.true_and]
    exact ih fun hm => h (by simp [hm])
  case case3 c rest hc ih =>
    simp only [segsOf, hc, if_true, wfSegs, isTimeTok]
    rw [Bool.true_and]
    exact ih fun hm => h (by simp [hm])
  case case4 c rest hc ih =>
    simp only [segsOf, hc, Bool.false_eq_true, if_false, wfSegs]
    rw [flattenSegs_segsOf (c :: rest)]
    have h1 : headNotDigit16 (c :: rest) = true := by
      simp only [headNotDigit16]
      rw [(by simpa using hc : (decide ('1' ≤ c) && decide (c ≤ '6')) = false)]
      rfl
    rw [h1]
    have h2 : wfSegs (segsOf (c :: rest)) = true := ih fun hm => h (by simp [hm])
    rw [h2]
    rfl
  case case5 c rest e1 e2 hc ih =>
    simp only [segsOf, hc, if_true, wfSegs, isTimeTok]
    rw [Bool.true_and]
    exact ih fun hm => h (by simp [hm])
  case case6 c rest e1 e2 hc ih =>
    simp only [segsOf, hc, Bool.false_eq_true, if_false, wfSegs]
    have hstar : (c != '*') = true := by
      have hne : c ≠ '*' := fun hh => h (by simp [hh])
      simpa using hne
    have hwf : wfSegs (segsOf rest) = true := ih fun hm => h (by simp [hm])
    have hzero : (c != '0' || headNotDigit16 (flattenSegs (segsOf rest))) = true := by
      by_cases hc0 : c = '0'
      · subst hc0
        cases rest with
        | nil => rfl
        | cons r rs => exact (e2 r rs rfl rfl).elim
      · have hb : (c != '0') = true := by simpa using hc0
        rw [hb, Bool.true_or]
    rw [hstar, hzero, hwf]
    rfl

/-- C3: the derived retention glob, for every path pattern.  Every
filename decomposes (via `segsOf`, which follows the replacement scan)
into time-format tokens and literal characters — `flattenSegs ∘ segsOf`
is the identity — and the glob is exactly that decomposition rendered
with every token replaced by one wildcard and every other character
preserved, followed by collapsing consecutive wildcards
(`collapseStars ∘ renderSegs`).  Whenever the filename has no literal
`*` (which the collapsing pass itself would merge), the decomposition
is well formed: every replaced segment is a genuine time token and
every preserved character a genuine non-token.  Token-free star-free
filenames pass through unchanged, the output never has two adjacent
wildcards, and the two concrete layouts ground the statement. -/
theorem claim_C3 :
    (∀ s : String,
      flattenSegs (segsOf s.toList) = s.toList ∧
      buildGlobPattern s = String.mk (collapseStars (renderSegs (segsOf s.toList)))) ∧
    (∀ s : String, '*' ∉ s.toList → wfSegs (segsOf s.toList) = true) ∧
    (∀ s : String, hasTimeToken s.toList = false → '*' ∉ s.toList →
      buildGlobPattern s = s) ∧
    (∀ s : String, noDoubleStar (buildGlobPattern s).toList = true) ∧
    buildGlobPattern "app-20060102.log" = "app-*.log" ∧
    buildGlobPattern "app-2006-01-02-15-04-05.log" = "app-*-*-*-*-*-*.log" := by
  refine ⟨?_, ?_, ?_, ?_, by decide, by decide⟩
  · intro s
    refine ⟨flattenSegs_segsOf s.toList, ?_⟩
    unfold buildGlobPattern
    rw [replaceTimeTokens_eq_render s.toList]
  · intro s h
    exact wfSegs_segsOf s.toList h
  · intro s htok hstar
    have h1 : replaceTimeTokens s.toList = s.toList := by
      by_contra hne
      rw [rtt_ne_imp_token s.toList hne] at htok
      cases htok
    unfold buildGlobPattern
    rw [h1, collapseStars_id s.toList hstar]
    rfl
  · intro s
    unfold buildGlobPattern
    exact noDoubleStar_collapseStars (replaceTimeTokens s.toList)

/-- Witness for C3 at the dash-separated filename "app-2006-01-02.log":
its decomposition is well formed and the glob is exactly the collapsed
rendering of that decomposition. -/
theorem claim_C3_witness :
    wfSegs (segsOf "app-2006-01-02.log".toList) = true ∧
    buildGlobPattern "app-2006-01-02.log"
      = String.mk (collapseStars (renderSegs (segsOf "app-2006-01-02.log".toList))) :=
  ⟨claim_C3.2.1 "app-2006-01-02.log" (by decide),
   (claim_C3.1 "app-2006-01-02.log").2⟩



theorem firstKeyHit_eq_spec (ctx : Ctx) (keys : List String) :
    firstKeyHit ctx keys = specFirstMatch ctx keys := by
  induction keys with
  | nil => rfl
  | cons k ks ih =>
    unfold firstKeyHit specFirstMatch
    cases hv : ctx k with
    | none =>
      have hp : ¬((strOf (ctx k) != "") = true) := by rw [hv]; exact Bool.false_ne_true
      rw [@List.find?_cons_of_neg String (fun x => strOf (ctx x) != "") k ks hp]
      exact ih
    | some v =>
      cases v with
      | other =>
        have hp : ¬((strOf (ctx k) != "") = true) := by
          rw [hv]; exact Bool.false_ne_true
        rw [@List.find?_cons_of_neg String (fun x => strOf (ctx x) != "") k ks hp]
        exact ih
      | str s =>
        by_cases hs : s = ""
        · subst hs
          have hp : ¬((strOf (ctx k) != "") = true) := by
            rw [hv]; exact Bool.false_ne_true
          rw [@List.find?_cons_of_neg String (fun x => strOf (ctx x) != "") k ks hp]
          simp only [ne_eq, not_true_eq_false, if_false]
          exact ih
        · have hp : (strOf (ctx k) != "") = true := by
            rw [hv]; simpa [strOf] using hs
          rw [@List.find?_cons_of_pos String (fun x => strOf (ctx x) != "") k ks hp]
          simp only [hv, strOf, ne_eq, hs, not_false_eq_true, if_true]

/-- C8: `DefaultTraceExtractor` probes the fixed trace-key variants
trace_id / traceId / TraceID / TRACE_ID and the span-key variants
span_id / spanId / SpanID / SPAN_ID in that priority order, each result
being the first value that is a non-empty string (`specFirstMatch`);
the extractor returns `none` exactly when both results are empty, and
otherwise the returned pair carries exactly those two results. -/
theorem claim_C8 (ctx : Ctx) :
    (DefaultTraceExtractor ctx = none ↔
      specFirstMatch ctx traceKeys = "" ∧ specFirstMatch ctx spanKeys = "") ∧
    (∀ ti : TraceInfo, DefaultTraceExtractor ctx = some ti →
      ti.TraceID = specFirstMatch ctx traceKeys ∧
      ti.SpanID = specFirstMatch ctx spanKeys) := by
  unfold DefaultTraceExtractor
  rw [← firstKeyHit_eq_spec ctx traceKeys, ← firstKeyHit_eq_spec ctx spanKeys]
  constructor
  · constructor
    · intro h
      by_cases hc : firstKeyHit ctx traceKeys = "" ∧ firstKeyHit ctx spanKeys = ""
      · exact hc
      · rw [if_neg hc] at h; cases h
    · intro h
      rw [if_pos h]
  · intro ti h
    by_cases hc : firstKeyHit ctx traceKeys = "" ∧ firstKeyHit ctx spanKeys = ""
    · rw [if_pos hc] at h; cases h
    · rw [if_neg hc] at h
      cases h
      exact ⟨rfl, rfl⟩

/-- Witness for C8: in a context where only the key "TraceID" is set (to
"abc"), the extractor returns that trace id and an empty span id. -/
theorem claim_C8_witness :
    ("abc" : String) = specFirstMatch exCtx traceKeys ∧
    ("" : String) = specFirstMatch exCtx spanKeys :=
  (claim_C8 exCtx).2 ⟨"abc", ""⟩ rfl



theorem entry_contains_iff (l : List Entry) (e : Entry) :
    l.contains e = true ↔ e ∈ l := by
  rw [List.contains_eq_any_beq, List.any_eq_true]
  constructor
  · rintro ⟨x, hx, hbeq⟩
    rwa [show e = x from by simpa using hbeq]
  · intro h; exact ⟨e, h, by simp⟩

theorem length_filter_drop (sorted : List Entry) (n : Nat) :
    (sorted.filter (fun e => !((sorted.drop n).contains e))).length ≤ n := by
  set d := sorted.drop n with hd
  conv_lhs => rw [← List.take_append_drop n sorted]
  rw [List.filter_append, ← hd]
  have h2 : d.filter (fun e => !(d.contains e)) = [] := by
    rw [List.filter_eq_nil_iff]
    intro a ha
    simp [entry_contains_iff, ha]
  rw [h2, List.append_nil]
  calc (List.filter _ (sorted.take n)).length
      ≤ (sorted.take n).length := List.length_filter_le _ _
    _ ≤ n := List.length_take_le n sorted

/-- C1: a pruning pass with `maxFiles = N > 0` (and removals succeeding)
keeps at most `N` matched non-current regular files, deletes only
matched non-current regular files, never adds entries, and every deleted
file is at most as new as every kept matched file (the newest are kept). -/
theorem claim_C1 (maxFiles : Int) (current : String) (isMatch : String → Bool)
    (entries : List Entry) (hN : 0 < maxFiles) :
    (((cleanOldFiles maxFiles current isMatch true entries).filter
        (fun e => isMatch e.name && e.name != current && !e.isDir)).length : Int)
      ≤ maxFiles ∧
    (∀ e ∈ entries, e ∉ cleanOldFiles maxFiles current isMatch true entries →
      (isMatch e.name && e.name != current && !e.isDir) = true) ∧
    (∀ e ∈ cleanOldFiles maxFiles current isMatch true entries, e ∈ entries) ∧
    (∀ k ∈ (cleanOldFiles maxFiles current isMatch true entries).filter
        (fun e => isMatch e.name && e.name != current && !e.isDir),
      ∀ g ∈ entries, g ∉ cleanOldFiles maxFiles current isMatch true entries →
        g.modTime ≤ k.modTime) := by
  set P : Entry → Bool := fun e => isMatch e.name && e.name != current && !e.isDir with hP
  unfold cleanOldFiles
  rw [if_neg (not_le.mpr hN)]
  by_cases hlen : (((entries.filter P).length : Nat) : Int) ≤ maxFiles
  · rw [if_pos hlen]
    refine ⟨hlen, ?_, fun e he => he, ?_⟩
    · intro e he hne; exact absurd he hne
    · intro k _ g hg hgn; exact absurd hg hgn
  · rw [if_neg hlen, if_pos rfl]
    set files := entries.filter P with hfiles
    set sorted := List.insertionSort newerFirst files with hsorted
    set doomed := sorted.drop maxFiles.toNat with hdoomed
    have hperm : List.Perm sorted files := List.perm_insertionSort newerFirst files
    have hsort : List.Sorted newerFirst sorted := List.sorted_insertionSort newerFirst files
    have hmem_doomed : ∀ e ∈ doomed, e ∈ files := by
      intro e he
      exact hperm.mem_iff.mp (List.mem_of_mem_drop he)
    have hres : ∀ e, e ∈ entries.filter (fun e => !(doomed.contains e)) ↔
        e ∈ entries ∧ ¬ e ∈ doomed := by
      intro e
      rw [List.mem_filter]
      constructor
      · rintro ⟨h1, h2⟩
        refine ⟨h1, fun hm => ?_⟩
        rw [Bool.not_eq_true', Bool.eq_false_iff] at h2
        exact h2 ((entry_contains_iff doomed e).mpr hm)
      · rintro ⟨h1, h2⟩
        refine ⟨h1, ?_⟩
        rw [Bool.not_eq_true', Bool.eq_false_iff]
        intro hc
        exact h2 ((entry_contains_iff doomed e).mp hc)
    refine ⟨?_, ?_, ?_, ?_⟩
    · -- count bound
      have e1 : (entries.filter (fun e => !(doomed.contains e))).filter P
          = files.filter (fun e => !(doomed.contains e)) := by
        rw [hfiles, List.filter_filter, List.filter_filter]
        apply List.filter_congr
        intro a _
        exact Bool.and_comm _ _
      rw [e1]
      have e2 : (files.filter (fun e => !(doomed.contains e))).length
          = (sorted.filter (fun e => !(doomed.contains e))).length :=
        (List.Perm.filter _ hperm).length_eq.symm
      rw [e2, hdoomed]
      have e3 := length_filter_drop sorted maxFiles.toNat
      have e4 : ((sorted.filter
          (fun e => !((sorted.drop maxFiles.toNat).contains e))).length : Int)
          ≤ (maxFiles.toNat : Int) := Int.ofNat_le.mpr e3
      rwa [Int.toNat_of_nonneg hN.le] at e4
    · intro e he hne
      rw [hres e] at hne
      push_neg at hne
      have hdo : e ∈ doomed := hne he
      have hf := hmem_doomed e hdo
      rw [hfiles, List.mem_filter] at hf
      exact hf.2
    · intro e he
      exact (List.mem_filter.mp he).1
    · intro k hk g hg hgn
      have hk1 := List.mem_filter.mp hk
      have hk2 := (hres k).mp hk1.1
      have hkf : k ∈ files := by
        rw [hfiles, List.mem_filter]
        exact ⟨hk2.1, hk1.2⟩
      have hks : k ∈ sorted := hperm.mem_iff.mpr hkf
      have hktake : k ∈ sorted.take maxFiles.toNat := by
        rcases List.mem_append.mp
          (by rwa [List.take_append_drop] : k ∈ sorted.take maxFiles.toNat ++ sorted.drop maxFiles.toNat) with h | h
        · exact h
        · exact absurd h hk2.2
      have hgd : g ∈ doomed := by
        rw [hres g] at hgn
        push_neg at hgn
        exact hgn hg
      rw [← List.take_append_drop maxFiles.toNat sorted] at hsort
      obtain ⟨-, -, hcross⟩ := List.pairwise_append.mp hsort
      exact hcross k hktake g hgd

/-- Witness for C1: pruning with `maxFiles = 1` over a directory holding
two old matched files and the current file deletes the older one. -/
theorem claim_C1_witness :
    (((cleanOldFiles 1 "cur" (fun _ => true) true
        [⟨"x", 1, false, []⟩, ⟨"y", 2, false, []⟩, ⟨"cur", 3, false, []⟩]).filter
        (fun e => (fun _ => true) e.name && e.name != "cur" && !e.isDir)).length : Int)
      ≤ 1 ∧
    (∀ e ∈ [⟨"x", 1, false, []⟩, ⟨"y", 2, false, []⟩, ⟨"cur", 3, false, ([] : List Nat)⟩],
      e ∉ cleanOldFiles 1 "cur" (fun _ => true) true
        [⟨"x", 1, false, []⟩, ⟨"y", 2, false, []⟩, ⟨"cur", 3, false, []⟩] →
      ((fun _ => true) e.name && e.name != "cur" && !e.isDir) = true) ∧
    (∀ e ∈ cleanOldFiles 1 "cur" (fun _ => true) true
        [⟨"x", 1, false, []⟩, ⟨"y", 2, false, []⟩, ⟨"cur", 3, false, []⟩],
      e ∈ [⟨"x", 1, false, []⟩, ⟨"y", 2, false, []⟩, ⟨"cur", 3, false, ([] : List Nat)⟩]) ∧
    (∀ k ∈ (cleanOldFiles 1 "cur" (fun _ => true) true
        [⟨"x", 1, false, []⟩, ⟨"y", 2, false, []⟩, ⟨"cur", 3, false, []⟩]).filter
        (fun e => (fun _ => true) e.name && e.name != "cur" && !e.isDir),
      ∀ g ∈ [⟨"x", 1, false, []⟩, ⟨"y", 2, false, []⟩, ⟨"cur", 3, false, ([] : List Nat)⟩],
        g ∉ cleanOldFiles 1 "cur" (fun _ => true) true
          [⟨"x", 1, false, []⟩, ⟨"y", 2, false, []⟩, ⟨"cur", 3, false, []⟩] →
        g.modTime ≤ k.modTime) :=
  claim_C1 1 "cur" (fun _ => true)
    [⟨"x", 1, false, []⟩, ⟨"y", 2, false, []⟩, ⟨"cur", 3, false, []⟩] (by decide)

theorem inv_openCurrentLocked (fs : FS) (s : FileWriter) :
    inv (FileWriter.openCurrentLocked fs s).2.1 := by
  unfold FileWriter.openCurrentLocked
  split
  · by_cases hfi : 0 < s.flushInterval
    · simp [inv, hfi]
    · simp [inv, hfi]
  · simp [inv]

theorem inv_rotateOpen (fs : FS) (s : FileWriter) (cur : String) :
    inv (FileWriter.rotateOpen fs s cur).2 := by
  have h := inv_openCurrentLocked fs { s with current := cur }
  unfold FileWriter.rotateOpen
  rcases ho : FileWriter.openCurrentLocked fs { s with current := cur } with ⟨fs2, s3, e⟩
  rw [ho] at h
  cases e with
  | some e => simpa using h
  | none =>
    by_cases hm : 0 < s3.maxFiles
    · simp only [hm, if_true]
      simpa using h
    · simp only [hm, if_false]
      simpa using h

theorem flushLocked_err_state (fs : FS) (s : FileWriter)
    (h : (FileWriter.flushLocked fs s).2.2 ≠ none) :
    (FileWriter.flushLocked fs s).2.1 = s ∧ (FileWriter.flushLocked fs s).1 = fs := by
  unfold FileWriter.flushLocked at h ⊢
  rcases hb : s.buf with - | b
  · rw [hb] at h; simp at h
  · rw [hb] at h
    rcases hf : s.file with - | f
    · exact ⟨rfl, rfl⟩
    · rw [hf] at h
      by_cases hc : (b.isEmpty || fs.writeOk) = true
      · simp [hc] at h
      · simp [hc]

theorem flushLocked_ok_state (fs : FS) (s : FileWriter)
    (h : (FileWriter.flushLocked fs s).2.2 = none) :
    (FileWriter.flushLocked fs s).2.1.buf = none ∧
    (FileWriter.flushLocked fs s).2.1.file = s.file := by
  unfold FileWriter.flushLocked at h ⊢
  rcases hb : s.buf with - | b
  · exact ⟨hb, rfl⟩
  · rw [hb] at h
    rcases hf : s.file with - | f
    · rw [hf] at h; simp at h
    · rw [hf] at h
      by_cases hc : (b.isEmpty || fs.writeOk) = true
      · simp [hc, hf]
      · simp [hc] at h

end Glog

namespace Glog

theorem flushLocked_fs_closeOk (fs : FS) (s : FileWriter) :
    (FileWriter.flushLocked fs s).1.closeOk = fs.closeOk := by
  unfold FileWriter.flushLocked
  rcases s.buf with - | b
  · rfl
  · rcases s.file with - | f
    · rfl
    · by_cases hc : (b.isEmpty || fs.writeOk) = true
      · simp only [hc, if_true]
        unfold FS.appendFile
        split <;> rfl
      · simp [hc]

theorem openCurrentLocked_ok_state (fs : FS) (s : FileWriter) (fs1 : FS)
    (s1 : FileWriter) (h : FileWriter.openCurrentLocked fs s = (fs1, s1, none)) :
    s1.file = some s.current ∧ s1.flushInterval = s.flushInterval := by
  unfold FileWriter.openCurrentLocked at h
  by_cases hop : fs.openOk s.current = true
  · rw [if_pos hop] at h
    cases h
    exact ⟨rfl, rfl⟩
  · rw [if_neg hop] at h
    cases h

theorem inv_writeToOpen (fs : FS) (s : FileWriter) (p : List Nat)
    (hfi : 0 ≤ s.flushInterval) (hfile : s.file ≠ none) (hinv : inv s) :
    inv (FileWriter.writeToOpen fs s p).state := by
  unfold FileWriter.writeToOpen
  by_cases h0 : s.flushInterval = 0
  · rw [if_pos h0]
    rcases hf : s.file with - | f
    · exact absurd hf hfile
    · by_cases hp : p.isEmpty = true
      · simpa [hp] using hinv
      · by_cases hw : fs.writeOk = true
        · simpa [hp, hw] using hinv
        · simpa [hp, hw] using hinv
  · rw [if_neg h0]
    have hpos : 0 < s.flushInterval := lt_of_le_of_ne hfi (Ne.symm h0)
    simp [inv, hpos, hfile]



theorem Write_some (fs : FS) (s : FileWriter) (p : List Nat) (f : String)
    (hf : s.file = some f) :
    FileWriter.Write fs s p = FileWriter.writeToOpen fs s p := by
  unfold FileWriter.Write
  rw [hf]

theorem Write_none_err (fs : FS) (s : FileWriter) (p : List Nat) (fs1 : FS)
    (s1 : FileWriter) (e : Err) (hf : s.file = none)
    (ho : FileWriter.openCurrentLocked fs s = (fs1, s1, some e)) :
    FileWriter.Write fs s p = ⟨fs1, s1, 0, some e⟩ := by
  unfold FileWriter.Write
  rw [hf, ho]

theorem Write_none_ok (fs : FS) (s : FileWriter) (p : List Nat) (fs1 : FS)
    (s1 : FileWriter) (hf : s.file = none)
    (ho : FileWriter.openCurrentLocked fs s = (fs1, s1, none)) :
    FileWriter.Write fs s p = FileWriter.writeToOpen fs1 s1 p := by
  unfold FileWriter.Write
  rw [hf, ho]

theorem checkAndRotate_noop (fs : FS) (s : FileWriter) (fmt : String)
    (heq : fmt = s.current) :
    FileWriter.checkAndRotate fs s fmt = (fs, s) := by
  unfold FileWriter.checkAndRotate
  rw [if_pos heq]

theorem checkAndRotate_flush_err (fs : FS) (s : FileWriter) (fmt : String)
    (fs1 : FS) (s1 : FileWriter) (e : Err) (hne : ¬ fmt = s.current)
    (hfl : FileWriter.flushLocked fs s = (fs1, s1, some e)) :
    FileWriter.checkAndRotate fs s fmt = (fs1, s1) := by
  unfold FileWriter.checkAndRotate
  rw [if_neg hne, hfl]

theorem checkAndRotate_nofile (fs : FS) (s : FileWriter) (fmt : String)
    (fs1 : FS) (s1 : FileWriter) (hne : ¬ fmt = s.current)
    (hfl : FileWriter.flushLocked fs s = (fs1, s1, none)) (hf : s1.file = none) :
    FileWriter.checkAndRotate fs s fmt = FileWriter.rotateOpen fs1 s1 fmt := by
  unfold FileWriter.checkAndRotate
  rw [if_neg hne, hfl]
  simp only [hf]

theorem checkAndRotate_file (fs : FS) (s : FileWriter) (fmt : String)
    (fs1 : FS) (s1 : FileWriter) (f : String) (hne : ¬ fmt = s.current)
    (hfl : FileWriter.flushLocked fs s = (fs1, s1, none)) (hf : s1.file = some f)
    (hc : fs1.closeOk = true) :
    FileWriter.checkAndRotate fs s fmt
      = FileWriter.rotateOpen fs1 { s1 with file := none } fmt := by
  unfold FileWriter.checkAndRotate
  rw [if_neg hne, hfl]
  simp only [hf, hc, if_true]



theorem Close_flush_err (fs : FS) (s : FileWriter) (fs1 : FS) (s1 : FileWriter)
    (e : Err) (hfl : FileWriter.flushLocked fs s = (fs1, s1, some e)) :
    FileWriter.Close fs s = (fs1, s1, some e) := by
  unfold FileWriter.Close
  rw [hfl]

theorem Close_nofile (fs : FS) (s : FileWriter) (fs1 : FS) (s1 : FileWriter)
    (hfl : FileWriter.flushLocked fs s = (fs1, s1, none)) (hf : s1.file = none) :
    FileWriter.Close fs s = (fs1, s1, none) := by
  unfold FileWriter.Close
  rw [hfl]
  simp only [hf]

theorem Close_file_ok (fs : FS) (s : FileWriter) (fs1 : FS) (s1 : FileWriter)
    (f : String) (hfl : FileWriter.flushLocked fs s = (fs1, s1, none))
    (hf : s1.file = some f) (hc : fs1.closeOk = true) :
    FileWriter.Close fs s = (fs1, { s1 with file := none }, none) := by
  unfold FileWriter.Close
  rw [hfl]
  simp only [hf, hc, if_true]

theorem Close_file_err (fs : FS) (s : FileWriter) (fs1 : FS) (s1 : FileWriter)
    (f : String) (hfl : FileWriter.flushLocked fs s = (fs1, s1, none))
    (hf : s1.file = some f) (hc : ¬ fs1.closeOk = true) :
    FileWriter.Close fs s = (fs1, s1, some Err.ioErr) := by
  unfold FileWriter.Close
  rw [hfl]
  simp [hf, hc]

theorem flushLocked_cases (fs : FS) (s : FileWriter) :
    (FileWriter.flushLocked fs s).2.2 = none ∨
    (FileWriter.flushLocked fs s).2.2 ≠ none := by
  rcases (FileWriter.flushLocked fs s).2.2 with - | e
  · exact Or.inl rfl
  · exact Or.inr (by simp)



theorem openCurrentLocked_pos (fs : FS) (s : FileWriter)
    (hop : fs.openOk s.current = true) :
    FileWriter.openCurrentLocked fs s =
      (fs.createFile s.current,
       { s with file := some s.current,
                buf := if 0 < s.flushInterval then some [] else none },
       none) := by
  unfold FileWriter.openCurrentLocked
  rw [if_pos hop]

theorem openCurrentLocked_neg (fs : FS) (s : FileWriter)
    (hop : ¬ fs.openOk s.current = true) :
    FileWriter.openCurrentLocked fs s =
      (fs, { s with file := none, buf := none }, some Err.notExist) := by
  unfold FileWriter.openCurrentLocked
  rw [if_neg hop]

theorem writeToOpen_direct_empty (fs : FS) (s : FileWriter) (p : List Nat)
    (f : String) (hfi : s.flushInterval = 0) (hf : s.file = some f)
    (hp : p.isEmpty = true) :
    FileWriter.writeToOpen fs s p = ⟨fs, s, 0, none⟩ := by
  unfold FileWriter.writeToOpen
  rw [if_pos hfi]
  simp only [hf, hp, if_true]

theorem writeToOpen_direct (fs : FS) (s : FileWriter) (p : List Nat)
    (f : String) (hfi : s.flushInterval = 0) (hf : s.file = some f)
    (hp : ¬ p.isEmpty = true) (hw : fs.writeOk = true) :
    FileWriter.writeToOpen fs s p = ⟨fs.appendFile f p, s, p.length, none⟩ := by
  unfold FileWriter.writeToOpen
  rw [if_pos hfi]
  simp [hf, hp, hw]

theorem writeToOpen_buffered (fs : FS) (s : FileWriter) (p : List Nat)
    (hfi : ¬ s.flushInterval = 0) :
    FileWriter.writeToOpen fs s p =
      ⟨fs, { s with buf := some ((s.buf).getD [] ++ p) }, p.length, none⟩ := by
  unfold FileWriter.writeToOpen
  rw [if_neg hfi]



theorem inv_Write (fs : FS) (s : FileWriter) (p : List Nat)
    (hfi : 0 ≤ s.flushInterval) (hinv : inv s) :
    inv (FileWriter.Write fs s p).state := by
  rcases hf : s.file with - | f
  · rcases ho : FileWriter.openCurrentLocked fs s with ⟨fs1, s1, e⟩
    have h1 := inv_openCurrentLocked fs s
    rw [ho] at h1
    cases e with
    | some e =>
      rw [Write_none_err fs s p fs1 s1 e hf ho]
      simpa using h1
    | none =>
      obtain ⟨hs1f, hs1fi⟩ := openCurrentLocked_ok_state fs s fs1 s1 ho
      rw [Write_none_ok fs s p fs1 s1 hf ho]
      exact inv_writeToOpen fs1 s1 p (by rwa [hs1fi]) (by rw [hs1f]; simp)
        (by simpa using h1)
  · rw [Write_some fs s p f hf]
    exact inv_writeToOpen fs s p hfi (by rw [hf]; simp) hinv

theorem inv_flushBuffer (fs : FS) (s : FileWriter) (hinv : inv s) :
    inv (FileWriter.flushBuffer fs s).2 := by
  unfold FileWriter.flushBuffer
  rcases hb : s.buf with - | b
  · simpa using hinv
  · rcases hf : s.file with - | f
    · simpa using hinv
    · by_cases hc : (b.isEmpty || fs.writeOk) = true
      · have hpos : 0 < s.flushInterval :=
          (hinv.mp (by rw [hb]; simp)).1
        simp [hc, inv, hpos, hf]
      · simpa [hc] using hinv

theorem inv_checkAndRotate (fs : FS) (s : FileWriter) (fmt : String)
    (hclose : fs.closeOk = true) (hinv : inv s) :
    inv (FileWriter.checkAndRotate fs s fmt).2 := by
  by_cases heq : fmt = s.current
  · rw [checkAndRotate_noop fs s fmt heq]
    exact hinv
  · rcases hfl : FileWriter.flushLocked fs s with ⟨fs1, s1, e⟩
    cases e with
    | some e =>
      rw [checkAndRotate_flush_err fs s fmt fs1 s1 e heq hfl]
      have he := flushLocked_err_state fs s (by rw [hfl]; simp)
      rw [hfl] at he
      have hs1 : s1 = s := by simpa using he.1
      simpa [hs1] using hinv
    | none =>
      have hok := flushLocked_ok_state fs s (by rw [hfl])
      rw [hfl] at hok
      rcases hsf : s1.file with - | f
      · rw [checkAndRotate_nofile fs s fmt fs1 s1 heq hfl hsf]
        exact inv_rotateOpen fs1 s1 fmt
      · have h2 : fs1.closeOk = fs.closeOk := by
          have h3 := flushLocked_fs_closeOk fs s
          rw [hfl] at h3
          simpa using h3
        rw [checkAndRotate_file fs s fmt fs1 s1 f heq hfl hsf (h2.trans hclose)]
        exact inv_rotateOpen fs1 { s1 with file := none } fmt

theorem inv_Close (fs : FS) (s : FileWriter) (hclose : fs.closeOk = true)
    (hinv : inv s) : inv (FileWriter.Close fs s).2.1 := by
  rcases hfl : FileWriter.flushLocked fs s with ⟨fs1, s1, e⟩
  cases e with
  | some e =>
    rw [Close_flush_err fs s fs1 s1 e hfl]
    have he := flushLocked_err_state fs s (by rw [hfl]; simp)
    rw [hfl] at he
    have hs1 : s1 = s := by simpa using he.1
    simpa [hs1] using hinv
  | none =>
    have hok := flushLocked_ok_state fs s (by rw [hfl])
    rw [hfl] at hok
    have hbuf : s1.buf = none := by simpa using hok.1
    rcases hsf : s1.file with - | f
    · rw [Close_nofile fs s fs1 s1 hfl hsf]
      simp [inv, hbuf, hsf]
    · have h2 : fs1.closeOk = fs.closeOk := by
        have h3 := flushLocked_fs_closeOk fs s
        rw [hfl] at h3
        simpa using h3
      rw [Close_file_ok fs s fs1 s1 f hfl hsf (h2.trans hclose)]
      simp [inv, hbuf]

theorem inv_NewFileWriter (fs : FS) (path : String) (mf fi : Int) (fmt : String) :
    inv (NewFileWriterWithFlushInterval fs path mf fi fmt).2 := by
  unfold NewFileWriterWithFlushInterval
  show inv (FileWriter.checkAndRotate fs
    { fileName := path, current := "", file := none, buf := none,
      maxFiles := mf, flushInterval := fi } fmt).2
  by_cases heq : fmt = ""
  · rw [checkAndRotate_noop fs _ fmt heq]
    simp [inv]
  · rw [checkAndRotate_nofile fs
      { fileName := path, current := "", file := none, buf := none,
        maxFiles := mf, flushInterval := fi } fmt fs
      { fileName := path, current := "", file := none, buf := none,
        maxFiles := mf, flushInterval := fi } heq rfl rfl]
    exact inv_rotateOpen fs
      { fileName := path, current := "", file := none, buf := none,
        maxFiles := mf, flushInterval := fi } fmt

theorem Close_ok_state (fs : FS) (s : FileWriter)
    (h : (FileWriter.Close fs s).2.2 = none) :
    (FileWriter.Close fs s).2.1.buf = none ∧
    (FileWriter.Close fs s).2.1.file = none := by
  rcases hfl : FileWriter.flushLocked fs s with ⟨fs1, s1, e⟩
  cases e with
  | some e =>
    rw [Close_flush_err fs s fs1 s1 e hfl] at h
    simp at h
  | none =>
    have hok := flushLocked_ok_state fs s (by rw [hfl])
    rw [hfl] at hok
    have hbuf : s1.buf = none := by simpa using hok.1
    rcases hsf : s1.file with - | f
    · rw [Close_nofile fs s fs1 s1 hfl hsf]
      exact ⟨hbuf, hsf⟩
    · by_cases hc : fs1.closeOk = true
      · rw [Close_file_ok fs s fs1 s1 f hfl hsf hc]
        exact ⟨hbuf, rfl⟩
      · rw [Close_file_err fs s fs1 s1 f hfl hsf hc] at h
        simp at h



theorem hasEntry_createFile (fs : FS) (nm : String) :
    (fs.createFile nm).hasEntry nm = true := by
  unfold FS.createFile
  by_cases h : fs.hasEntry nm = true
  · rw [if_pos h]; exact h
  · rw [if_neg h]
    unfold FS.hasEntry
    rw [List.any_append, Bool.or_eq_true]
    right
    simp

theorem createFile_writeOk (fs : FS) (nm : String) :
    (fs.createFile nm).writeOk = fs.writeOk := by
  unfold FS.createFile
  split <;> rfl

theorem lookupFile_createFile (fs : FS) (nm : String) :
    (fs.createFile nm).lookupFile nm = some ((fs.lookupFile nm).getD []) := by
  unfold FS.createFile
  by_cases h : fs.hasEntry nm = true
  · rw [if_pos h]
    unfold FS.hasEntry at h
    rw [List.any_eq_true] at h
    obtain ⟨x, hx, hpx⟩ := h
    unfold FS.lookupFile
    rcases hfind : fs.entries.find? (fun e => e.name == nm && !e.isDir) with - | e
    · rw [List.find?_eq_none] at hfind
      exact absurd hpx (hfind x hx)
    · rw [hfind]
      rfl
  · rw [if_neg h]
    have hnone : fs.entries.find? (fun e => e.name == nm && !e.isDir) = none := by
      rw [List.find?_eq_none]
      intro x hx hpx
      exact h (by unfold FS.hasEntry; rw [List.any_eq_true]; exact ⟨x, hx, hpx⟩)
    unfold FS.lookupFile
    dsimp only
    rw [List.find?_append, hnone]
    simp

theorem find?_map_upd (nm : String) (p : List Nat) (clock : Nat) (l : List Entry) :
    (l.map (fun e => if e.name == nm && !e.isDir
        then { e with content := e.content ++ p, modTime := clock } else e)).find?
      (fun e => e.name == nm && !e.isDir)
    = (l.find? (fun e => e.name == nm && !e.isDir)).map
        (fun e => { e with content := e.content ++ p, modTime := clock }) := by
  induction l with
  | nil => rfl
  | cons x xs ih =>
    rw [List.map_cons]
    by_cases hx : (x.name == nm && !x.isDir) = true
    · rw [if_pos hx]
      rw [@List.find?_cons_of_pos Entry (fun e => e.name == nm && !e.isDir)
        { x with content := x.content ++ p, modTime := clock }
        (xs.map (fun e => if e.name == nm && !e.isDir
          then { e with content := e.content ++ p, modTime := clock } else e)) hx]
      rw [@List.find?_cons_of_pos Entry (fun e => e.name == nm && !e.isDir) x xs hx]
      rfl
    · rw [if_neg hx]
      rw [@List.find?_cons_of_neg Entry (fun e => e.name == nm && !e.isDir) x
        (xs.map (fun e => if e.name == nm && !e.isDir
          then { e with content := e.content ++ p, modTime := clock } else e)) hx]
      rw [@List.find?_cons_of_neg Entry (fun e => e.name == nm && !e.isDir) x xs hx]
      exact ih

theorem lookupFile_appendFile (fs : FS) (nm : String) (p : List Nat) (c : List Nat)
    (h : fs.lookupFile nm = some c) :
    (fs.appendFile nm p).lookupFile nm = some (c ++ p) := by
  unfold FS.appendFile
  by_cases hp : p.isEmpty = true
  · rw [if_pos hp]
    have hpnil : p = [] := by simpa using hp
    rw [hpnil, List.append_nil]
    exact h
  · rw [if_neg hp]
    unfold FS.lookupFile at h ⊢
    rw [find?_map_upd nm p fs.clock fs.entries]
    rcases hfind : fs.entries.find? (fun e => e.name == nm && !e.isDir) with - | e
    · rw [hfind] at h; cases h
    · rw [hfind] at h
      have hc : e.content = c := by
        injection h
      rw [hfind]
      rw [← hc]
      rfl



/-- C4: the claim is false on the code.  With no file open and the path
openable, a zero-length write succeeds with (0, nil) but opens — and
here creates — the current file: `Write` reopens before it looks at the
length of the input. -/
theorem claim_C4_cex :
    (FileWriter.Write fsEmpty swClosed []).err = none ∧
    (FileWriter.Write fsEmpty swClosed []).n = 0 ∧
    fsEmpty.hasEntry "app.log" = false ∧
    (FileWriter.Write fsEmpty swClosed []).fs.hasEntry "app.log" = true := by
  refine ⟨by decide, by decide, by decide, by decide⟩

/-- C4 (amended): when a file is already open, a zero-length write
returns (0, nil) and changes nothing.  When no file is open, the write
first reopens the resolved current path: on success it still returns
(0, nil) but the open has created the file; on failure the open error is
returned. -/
theorem claim_C4_amended (fs : FS) (s : FileWriter)
    (hfi : 0 ≤ s.flushInterval) (hinv : inv s) :
    (s.file ≠ none → FileWriter.Write fs s [] = ⟨fs, s, 0, none⟩) ∧
    (s.file = none → fs.openOk s.current = true →
      (FileWriter.Write fs s []).err = none ∧ (FileWriter.Write fs s []).n = 0 ∧
      (FileWriter.Write fs s []).fs.hasEntry s.current = true) ∧
    (s.file = none → fs.openOk s.current = false →
      (FileWriter.Write fs s []).err = some Err.notExist ∧
      (FileWriter.Write fs s []).n = 0) := by
  refine ⟨?_, ?_, ?_⟩
  · intro hf
    rcases hsf : s.file with - | f
    · exact absurd hsf hf
    · rw [Write_some fs s [] f hsf]
      by_cases h0 : s.flushInterval = 0
      · exact writeToOpen_direct_empty fs s [] f h0 hsf rfl
      · rw [writeToOpen_buffered fs s [] h0]
        have hpos : 0 < s.flushInterval := lt_of_le_of_ne hfi (Ne.symm h0)
        have hbne : s.buf ≠ none := hinv.mpr ⟨hpos, by rw [hsf]; simp⟩
        rcases hb : s.buf with - | b
        · exact absurd hb hbne
        · have hcollapse : some (((some b).getD []) ++ ([] : List Nat)) = s.buf := by
            rw [hb]
            simp
          rw [hcollapse]
          rfl
  · intro hsf hop
    rw [Write_none_ok fs s []
      (fs.createFile s.current)
      { s with file := some s.current, buf := if 0 < s.flushInterval then some [] else none }
      hsf (openCurrentLocked_pos fs s hop)]
    by_cases h0 : s.flushInterval = 0
    · rw [writeToOpen_direct_empty (fs.createFile s.current)
        { s with file := some s.current, buf := if 0 < s.flushInterval then some [] else none }
        [] s.current h0 rfl rfl]
      exact ⟨rfl, rfl, hasEntry_createFile fs s.current⟩
    · rw [writeToOpen_buffered (fs.createFile s.current)
        { s with file := some s.current, buf := if 0 < s.flushInterval then some [] else none }
        [] h0]
      exact ⟨rfl, rfl, hasEntry_createFile fs s.current⟩
  · intro hsf hop
    rw [Write_none_err fs s [] fs { s with file := none, buf := none } Err.notExist
      hsf (openCurrentLocked_neg fs s (by rw [hop]; exact Bool.false_ne_true))]
    exact ⟨rfl, rfl⟩

/-- Witness for C4 (amended): a buffered writer with "a" open absorbs a
zero-length write with no change at all. -/
theorem claim_C4_witness :
    FileWriter.Write fsOneFile swBuffered [] = ⟨fsOneFile, swBuffered, 0, none⟩ :=
  (claim_C4_amended fsOneFile swBuffered (by decide) (by decide)).1 (by decide)

/-- C5: with no file open (e.g. after close), a write transparently
reopens the resolved current path: if the open succeeds the write
returns (len, nil) with the file handle restored — unbuffered bytes land
in the file, buffered bytes in the fresh buffer; if the open fails, that
open error is returned synchronously with count 0 and still no open
file. -/
theorem claim_C5 (fs : FS) (s : FileWriter) (p : List Nat)
    (hfile : s.file = none) (hw : fs.writeOk = true) :
    (fs.openOk s.current = true →
      (FileWriter.Write fs s p).err = none ∧
      (FileWriter.Write fs s p).n = p.length ∧
      (FileWriter.Write fs s p).state.file = some s.current ∧
      (s.flushInterval = 0 →
        (FileWriter.Write fs s p).fs.lookupFile s.current =
          some ((fs.lookupFile s.current).getD [] ++ p)) ∧
      (¬ s.flushInterval = 0 → (FileWriter.Write fs s p).state.buf = some p)) ∧
    (fs.openOk s.current = false →
      (FileWriter.Write fs s p).err = some Err.notExist ∧
      (FileWriter.Write fs s p).n = 0 ∧
      (FileWriter.Write fs s p).state.file = none) := by
  constructor
  · intro hop
    rw [Write_none_ok fs s p (fs.createFile s.current)
      { s with file := some s.current, buf := if 0 < s.flushInterval then some [] else none }
      hfile (openCurrentLocked_pos fs s hop)]
    by_cases h0 : s.flushInterval = 0
    · by_cases hp : p.isEmpty = true
      · rw [writeToOpen_direct_empty (fs.createFile s.current)
          { s with file := some s.current, buf := if 0 < s.flushInterval then some [] else none }
          p s.current h0 rfl hp]
        have hpnil : p = [] := by simpa using hp
        refine ⟨rfl, by rw [hpnil]; rfl, rfl, ?_, fun hh => absurd h0 hh⟩
        intro _
        rw [lookupFile_createFile fs s.current, hpnil, List.append_nil]
      · rw [writeToOpen_direct (fs.createFile s.current)
          { s with file := some s.current, buf := if 0 < s.flushInterval then some [] else none }
          p s.current h0 rfl hp
          (by rw [createFile_writeOk]; exact hw)]
        refine ⟨rfl, rfl, rfl, ?_, fun hh => absurd h0 hh⟩
        intro _
        exact lookupFile_appendFile _ s.current p _ (lookupFile_createFile fs s.current)
    · rw [writeToOpen_buffered (fs.createFile s.current)
        { s with file := some s.current, buf := if 0 < s.flushInterval then some [] else none }
        p h0]
      refine ⟨rfl, rfl, rfl, fun hh => absurd hh h0, ?_⟩
      intro _
      by_cases hpos : 0 < s.flushInterval
      · simp [hpos]
      · simp [hpos]
  · intro hop
    rw [Write_none_err fs s p fs { s with file := none, buf := none } Err.notExist
      hfile (openCurrentLocked_neg fs s (by rw [hop]; exact Bool.false_ne_true))]
    exact ⟨rfl, rfl, rfl⟩

/-- Witness for C5: a closed unbuffered writer accepts a write, reopens
"app.log", and the bytes are readable from the file. -/
theorem claim_C5_witness :
    (FileWriter.Write fsEmpty swClosed [1, 2]).err = none ∧
    (FileWriter.Write fsEmpty swClosed [1, 2]).n = 2 ∧
    (FileWriter.Write fsEmpty swClosed [1, 2]).fs.lookupFile "app.log" = some [1, 2] := by
  have h := (claim_C5 fsEmpty swClosed [1, 2] rfl rfl).1 rfl
  exact ⟨h.1, h.2.1, h.2.2.2.1 rfl⟩

/-- C6: the claim is false on the code.  With a buffered writer holding
pending bytes on a failing disk, the first close returns the flush
error and leaves the buffer in place, so the second close fails the
same way: "after a first call to close has returned" is not enough for
the second call to succeed. -/
theorem claim_C6_cex :
    (FileWriter.Close fsNoWrite swBuffered).2.2 = some Err.ioErr ∧
    (FileWriter.Close (FileWriter.Close fsNoWrite swBuffered).1
      (FileWriter.Close fsNoWrite swBuffered).2.1).2.2 = some Err.ioErr := by
  refine ⟨by decide, by decide⟩

/-- C6 (amended): close is idempotent once it has succeeded — after a
first close that returned no error, a second close (under any file
system state) returns no error and changes neither the writer state nor
the file system. -/
theorem claim_C6_amended (fs : FS) (s : FileWriter) (fs₂ : FS)
    (h : (FileWriter.Close fs s).2.2 = none) :
    (FileWriter.Close fs₂ (FileWriter.Close fs s).2.1).2.2 = none ∧
    (FileWriter.Close fs₂ (FileWriter.Close fs s).2.1).2.1
      = (FileWriter.Close fs s).2.1 ∧
    (FileWriter.Close fs₂ (FileWriter.Close fs s).2.1).1 = fs₂ := by
  obtain ⟨hb, hf⟩ := Close_ok_state fs s h
  have hfl2 : FileWriter.flushLocked fs₂ (FileWriter.Close fs s).2.1
      = (fs₂, (FileWriter.Close fs s).2.1, none) := by
    unfold FileWriter.flushLocked
    rw [hb]
  rw [Close_nofile fs₂ (FileWriter.Close fs s).2.1 fs₂
    (FileWriter.Close fs s).2.1 hfl2 hf]
  exact ⟨rfl, rfl, rfl⟩

/-- Witness for C6 (amended): on a healthy disk, closing the buffered
writer succeeds and a repeated close is a no-op without error. -/
theorem claim_C6_witness :
    (FileWriter.Close fsOneFile (FileWriter.Close fsOneFile swBuffered).2.1).2.2
      = none ∧
    (FileWriter.Close fsOneFile (FileWriter.Close fsOneFile swBuffered).2.1).2.1
      = (FileWriter.Close fsOneFile swBuffered).2.1 ∧
    (FileWriter.Close fsOneFile (FileWriter.Close fsOneFile swBuffered).2.1).1
      = fsOneFile :=
  claim_C6_amended fsOneFile swBuffered fsOneFile (by decide)

/-- C7: the claim is false on the code.  When closing the old file fails
during a rotation, the error path returns with the buffer already
flushed away but the stale handle still installed, so "buffer present
iff buffering enabled and a file open" is violated. -/
theorem claim_C7_cex :
    inv swBufferedEmpty ∧
    ¬ inv (FileWriter.checkAndRotate fsNoClose swBufferedEmpty "b").2 := by
  refine ⟨by decide, by decide⟩

/-- C7 (amended): construction, write, rotation check, periodic flush
and close all preserve the buffer invariant, provided the configured
flush interval is non-negative (for write) and closing the underlying
file does not fail (for rotation and close, whose close-error paths are
exactly the counterexample). -/
theorem claim_C7_amended :
    (∀ (fs : FS) (path : String) (mf fi : Int) (fmt : String),
      inv (NewFileWriterWithFlushInterval fs path mf fi fmt).2) ∧
    (∀ (fs : FS) (s : FileWriter) (p : List Nat), 0 ≤ s.flushInterval → inv s →
      inv (FileWriter.Write fs s p).state) ∧
    (∀ (fs : FS) (s : FileWriter) (fmt : String), fs.closeOk = true → inv s →
      inv (FileWriter.checkAndRotate fs s fmt).2) ∧
    (∀ (fs : FS) (s : FileWriter), inv s → inv (FileWriter.flushBuffer fs s).2) ∧
    (∀ (fs : FS) (s : FileWriter), fs.closeOk = true → inv s →
      inv (FileWriter.Close fs s).2.1) :=
  ⟨inv_NewFileWriter, inv_Write, inv_checkAndRotate, inv_flushBuffer, inv_Close⟩

/-- Witness for C7 (amended): a buffered write preserves the invariant
on a concrete state. -/
theorem claim_C7_witness :
    inv (FileWriter.Write fsOneFile swBuffered [3]).state :=
  claim_C7_amended.2.1 fsOneFile swBuffered [3] (by decide) (by decide)

/-- C9: a handler built from nil options gets the documented defaults:
stdout output, the single-line text inner handler at level Info without
source info, the default trace/span field names, and no trace extractor
or record handler; a record is enabled exactly from level Info up. -/
theorem claim_C9 :
    (NewHandler none).writer = HandlerWriter.stdoutW ∧
    (NewHandler none).handler = InnerHandler.lineH LevelInfo false ∧
    (NewHandler none).traceExtractor = none ∧
    (NewHandler none).recordHandle = none ∧
    (NewHandler none).traceIDFieldName = defaultTraceIDFieldName ∧
    (NewHandler none).spanIDFieldName = defaultSpanIDFieldName ∧
    (∀ lvl : Int, (NewHandler none).Enabled lvl = true ↔ LevelInfo ≤ lvl) := by
  refine ⟨rfl, rfl, rfl, rfl, rfl, rfl, ?_⟩
  intro lvl
  unfold Handler.Enabled
  simp [NewHandler, defaultOptions, InnerHandler.level]

/-- C10: the handler's close delegates to the writer exactly when the
writer implements io.Closer, returning the writer's own result —
in particular, for a rotating-file-writer-backed handler it is exactly
`FileWriter.Close` on the writer's current state, errors included —
and is a successful no-op leaving everything unchanged otherwise. -/
theorem claim_C10 (h : Handler) (fs : FS) (st : FileWriter) :
    (h.writer.isCloser = true →
      Handler.Close h fs st = h.writer.closeWriter fs st) ∧
    (h.writer.isCloser = false → Handler.Close h fs st = (fs, st, none)) ∧
    (∀ path mf fi, h.writer = HandlerWriter.fileW path mf fi →
      Handler.Close h fs st = FileWriter.Close fs st) ∧
    (∀ r, h.writer = HandlerWriter.customW true r →
      (Handler.Close h fs st).2.2 = r) := by
  refine ⟨?_, ?_, ?_, ?_⟩
  · intro hc
    unfold Handler.Close
    rw [if_pos hc]
  · intro hc
    unfold Handler.Close
    rw [if_neg (by rw [hc]; exact Bool.false_ne_true)]
  · intro path mf fi hw
    unfold Handler.Close
    rw [hw]
    rfl
  · intro r hw
    unfold Handler.Close
    rw [hw]
    rfl

/-- Witness for C10: a file-writer-backed handler over a failing disk
propagates the writer's flush error from close, and a user closer
writer's error comes back verbatim. -/
theorem claim_C10_witness :
    Handler.Close hFile fsNoWrite swBuffered = FileWriter.Close fsNoWrite swBuffered ∧
    (Handler.Close hFile fsNoWrite swBuffered).2.2 = some Err.ioErr ∧
    (Handler.Close hCloser fsOneFile swBuffered).2.2 = some Err.ioErr := by
  refine ⟨(claim_C10 hFile fsNoWrite swBuffered).2.2.1 "app.log" 0 1 rfl, ?_, ?_⟩
  · rw [(claim_C10 hFile fsNoWrite swBuffered).2.2.1 "app.log" 0 1 rfl]
    decide
  · exact (claim_C10 hCloser fsOneFile swBuffered).2.2.2 (some Err.ioErr) rfl

end Glog

